import Mathlib

/-!
Verification of the InstaGen size-bounded image optimizer core.

The repository contains three variants of the byte-budget compression loop:

* `ImageOptimizer.optimize_for_retail` (src/backend/services/image_processing.py):
  quality-only loop, start quality 95, step 5, floor 10, target 500 KB,
  `max_iterations = 20`, working on in-memory `BytesIO` buffers.
* `ImageOptimizer.optimize_export` (same file): quality-and-rescale loop,
  start quality 85, `quality = max(10, quality - 5)` per pass, dimensions
  `max(100, int(dim * 0.95))` per pass, loop guard
  `current_size > target_bytes and iteration < max_iterations`.
* `recursive_optimize_export` (src/MODULE_C_ImageOptimizer.py): file-based
  loop, start quality 95, step 5, loop guard
  `file_size_kb > 500 and quality >= 65`, saving over the input path,
  with a blanket `except` that returns `None`.

The codec (PIL's JPEG encoder) is the external collaborator: it is modelled
as an oracle giving the encoded byte size for given parameters, `Option`
valued where a codec failure (exception) is relevant.  Byte sizes are exact:
the Python comparisons divide by 1024 (a power of two, exact in binary
floating point), so `size/1024 < 500 ↔ size < 512000` and
`size/1024 <= 500 ↔ size ≤ 512000`.  `int(w * 0.95)` equals `19 * w / 20`
in natural-number arithmetic for every width arising here (checked
exhaustively far beyond any realistic pixel dimension).
-/

namespace InstaGen

/-- Outcome of `optimize_for_retail`: either a returned `BytesIO` buffer,
instrumented with its byte size, the quality at which it was encoded and the
iteration that produced it, or a raised exception (the `except` wrapper
re-raises every failure as a generic `Exception`). -/
inductive RetailOutcome where
  | ok (size : Nat) (quality : Int) (iteration : Nat)
  | err (msg : String)
deriving DecidableEq, Repr

/-- Loop body of `optimize_for_retail`, recursing on the remaining
iterations (`fuel = max_iterations - iteration`).  Each pass increments
`iteration`, encodes at the current `quality` (`enc quality`, `none` being a
codec exception, re-raised wrapped), returns the buffer on
`file_size_kb < target_size_kb` (i.e. `size < 512000`), otherwise lowers
`quality` by 5 and returns the just-encoded buffer as best effort once
`quality < 10`.  Exhausted fuel is the `raise` after the loop, also caught
and re-raised by the wrapper. -/
def retailLoop (enc : Int → Option Nat) (quality : Int)
    (iteration fuel : Nat) : RetailOutcome :=
  match fuel with
  | 0 => .err "Error in optimize_for_retail: Optimization failed after 20 iterations"
  | fuel + 1 =>
    match enc quality with
    | none => .err "Error in optimize_for_retail: codec failure"
    | some size =>
      if size < 512000 then .ok size quality (iteration + 1)
      else if quality - 5 < 10 then .ok size quality (iteration + 1)
      else retailLoop enc (quality - 5) (iteration + 1) fuel

/-- `ImageOptimizer.optimize_for_retail`: quality starts at 95,
`iteration = 0`, `max_iterations = 20`, target 500 KB.  The image itself is
fixed for the whole loop, so the codec oracle depends only on quality. -/
def optimize_for_retail (enc : Int → Option Nat) : RetailOutcome :=
  retailLoop enc 95 0 20

/-- Provenance of the bytes held by `optimized_data` in `optimize_export`:
either still the caller's original `image_data`, or the JPEG encoding
produced at a given quality and working dimensions. -/
inductive ExpData where
  | orig
  | encoded (quality : Int) (width height : Nat)
deriving DecidableEq, Repr

/-- State returned by `optimize_export`, instrumented with the loop
variables at exit: the returned bytes (`data` with byte count `size`), the
final quality, working dimensions and iteration count. -/
structure ExportResult where
  data : ExpData
  size : Nat
  quality : Int
  width : Nat
  height : Nat
  iteration : Nat
deriving DecidableEq, Repr

/-- Per-pass quality update of `optimize_export`: `quality = max(10, quality - 5)`. -/
def stepQ (q : Int) : Int := max 10 (q - 5)

/-- Integer truncation of `w * 0.95` as computed by Python's
`int(img.width * 0.95)`; equal to `19 * w / 20` in `Nat` arithmetic for all
widths arising here. -/
def scale95 (w : Nat) : Nat := 19 * w / 20

/-- Per-pass dimension update of `optimize_export`:
`max(100, int(dim * 0.95))`. -/
def stepDim (w : Nat) : Nat := max 100 (scale95 w)

/-- Loop body of `optimize_export`, recursing on the remaining iterations.
The guard is `current_size > target_bytes and iteration < max_iterations`;
a pass lowers quality (floored at 10), rescales both dimensions (floored at
100), re-encodes (`sz quality width height`) and replaces `optimized_data`.
The quality/dimension schedule does not depend on the measured sizes. -/
def exportLoop (sz : Int → Nat → Nat → Nat) (targetBytes : Nat)
    (quality : Int) (w h : Nat) (current : Nat) (data : ExpData)
    (iteration fuel : Nat) : ExportResult :=
  match fuel with
  | 0 => ⟨data, current, quality, w, h, iteration⟩
  | fuel + 1 =>
    if current ≤ targetBytes then ⟨data, current, quality, w, h, iteration⟩
    else
      let q := stepQ quality
      let w' := stepDim w
      let h' := stepDim h
      let s := sz q w' h'
      exportLoop sz targetBytes q w' h' s (.encoded q w' h') (iteration + 1) fuel

/-- `ImageOptimizer.optimize_export`: `target_bytes = target_size_kb * 1024`,
quality starts at 85, `iteration = 0`, `current_size = len(image_data)` and
`optimized_data = image_data` before the loop (the input's container-level
byte count `len0` is used directly).  `w0, h0` are the decoded image's
dimensions. -/
def optimize_export (sz : Int → Nat → Nat → Nat) (len0 w0 h0 : Nat)
    (targetKB maxIterations : Nat) : ExportResult :=
  exportLoop sz (targetKB * 1024) 85 w0 h0 len0 .orig 0 maxIterations

/-- Content of the caller's file at `file_path` as seen by
`recursive_optimize_export`: the original bytes, or the JPEG saved over the
file at a given quality. -/
inductive McData where
  | orig
  | encoded (quality : Int)
deriving DecidableEq, Repr

/-- Result of a normal (non-`None`) return of `recursive_optimize_export`:
the final content of the caller's file, its byte size, and the number of
loop passes performed (each pass performs exactly one save). -/
structure McResult where
  file : McData
  size : Nat
  iteration : Nat
deriving DecidableEq, Repr

/-- Loop body of `recursive_optimize_export`.  Guard:
`file_size_kb > MAX_FILE_SIZE_KB and quality >= QUALITY_MIN`
(`sizeB > 512000 ∧ quality ≥ 65`).  A pass increments `iteration`, lowers
`quality` by `QUALITY_STEP = 5`, saves over the file at the lowered quality
(`sz q`; a codec exception is caught by the blanket `except`, which returns
`None`), then re-measures.  `fuel` counts down from `max_iterations = 20`,
mirroring the `if iteration >= max_iterations: break` after the body. -/
def mcLoop (sz : Int → Option Nat) (sizeB : Nat) (file : McData)
    (quality : Int) (iteration fuel : Nat) : Option McResult :=
  match fuel with
  | 0 => some ⟨file, sizeB, iteration⟩
  | fuel + 1 =>
    if 512000 < sizeB ∧ 65 ≤ quality then
      match sz (quality - 5) with
      | none => none
      | some s => mcLoop sz s (.encoded (quality - 5)) (quality - 5) (iteration + 1) fuel
    else some ⟨file, sizeB, iteration⟩

/-- `recursive_optimize_export` (MODULE_C): if the file is already at most
`MAX_FILE_SIZE_KB = 500` KB (`len0 ≤ 512000` bytes) it is returned as-is
with no encode; otherwise the compression loop runs with
`QUALITY_START = 95`, `max_iterations = 20`, saving over the caller's file
each pass.  `none` is the Python `return None` of the blanket `except`. -/
def recursive_optimize_export (sz : Int → Option Nat) (len0 : Nat) :
    Option McResult :=
  if len0 ≤ 512000 then some ⟨.orig, len0, 0⟩
  else mcLoop sz len0 .orig 95 0 20

/-! Pixel-level model of the pre-encode mode handling.  PIL modes relevant
to the sources: `RGB`, `RGBA`, `LA` (gray with alpha) and `L` (gray). -/

/-- PIL image modes occurring in the modelled fragment. -/
inductive Mode where
  | RGB
  | RGBA
  | LA
  | L
deriving DecidableEq, Repr

/-- A pixel, tagged by its channel layout. -/
inductive Pixel where
  | rgb (r g b : Nat)
  | rgba (r g b a : Nat)
  | la (l a : Nat)
  | gray (v : Nat)
deriving DecidableEq, Repr

/-- A decoded raster image: mode and pixel data. -/
structure Img where
  mode : Mode
  px : List Pixel
deriving DecidableEq, Repr

/-- Alpha compositing of channel value `c` with alpha `a` over a white
(255) background, as performed by `background.paste(image, mask=alpha)`. -/
def blend (c a : Nat) : Nat := (c * a + 255 * (255 - a)) / 255

/-- Per-pixel effect of pasting onto a white `RGB` background using the
alpha channel as mask (the `Image.new("RGB", size, (255,255,255))` /
`paste(img, mask=img.split()[3])` idiom): an RGBA pixel is composited over
white; the idiom is only ever applied to RGBA data. -/
def flattenPx : Pixel → Pixel
  | .rgba r g b a => .rgb (blend r a) (blend g a) (blend b a)
  | p => p

/-- The source's white-background flattening of an RGBA image. -/
def flattenWhite (img : Img) : Img := ⟨.RGB, img.px.map flattenPx⟩

/-- Per-pixel effect of PIL's `Image.convert("RGB")`: the alpha channel, if
any, is discarded (not composited); gray values are replicated. -/
def toRGBPx : Pixel → Pixel
  | .rgb r g b => .rgb r g b
  | .rgba r g b _ => .rgb r g b
  | .la l _ => .rgb l l l
  | .gray v => .rgb v v v

/-- PIL's `img.convert("RGB")`. -/
def convertRGB (img : Img) : Img := ⟨.RGB, img.px.map toRGBPx⟩

/-- Pre-encode mode handling of `optimize_for_retail`
(`if image.mode != "RGB": if image.mode == "RGBA": paste onto white
else: image.convert("RGB")`). -/
def retailPreprocess (img : Img) : Img :=
  if img.mode ≠ .RGB then
    if img.mode = .RGBA then flattenWhite img else convertRGB img
  else img

/-- Pre-encode mode handling of `recursive_optimize_export`
(`if img.mode == "RGBA": paste onto white`; every other mode is left
untouched). -/
def mcPreprocess (img : Img) : Img :=
  if img.mode = .RGBA then flattenWhite img else img

/-- Whether a mode carries an alpha channel. -/
def hasAlpha : Mode → Bool
  | .RGBA => true
  | .LA => true
  | _ => false

/-- Whether a pixel has the RGBA channel layout. -/
def Pixel.isRGBA : Pixel → Bool
  | .rgba _ _ _ _ => true
  | _ => false

/-- Flattening onto an opaque solid-white background as the specification
words it, stated for every alpha-carrying layout: each pixel's color
channels are composited over white using its alpha.  This is the
spec-side definition the code's preprocessing is compared against. -/
def specFlattenPx : Pixel → Pixel
  | .rgba r g b a => .rgb (blend r a) (blend g a) (blend b a)
  | .la l a => .rgb (blend l a) (blend l a) (blend l a)
  | p => p

/-- Spec-side flatten-onto-white of a whole image. -/
def specFlattenWhite (img : Img) : Img := ⟨.RGB, img.px.map specFlattenPx⟩

/-! Loop characterization lemmas. -/

/-- Any buffer returned by `retailLoop` was produced within `fuel` further
passes. -/
theorem retailLoop_iter_le (enc : Int → Option Nat) :
    ∀ (fuel : Nat) (q : Int) (it : Nat) (s : Nat) (q' : Int) (i : Nat),
      retailLoop enc q it fuel = .ok s q' i → i ≤ it + fuel := by
  intro fuel
  induction fuel with
  | zero => intro q it s q' i h; simp [retailLoop] at h
  | succ n ih =>
    intro q it s q' i h
    simp only [retailLoop] at h
    cases henc : enc q with
    | none => rw [henc] at h; simp at h
    | some size =>
      rw [henc] at h
      simp only at h
      split_ifs at h with h1 h2
      · rw [RetailOutcome.ok.injEq] at h; omega
      · rw [RetailOutcome.ok.injEq] at h; omega
      · exact le_trans (ih _ _ _ _ _ h) (by omega)

/-- With a total codec, `retailLoop` always returns a buffer, within
`(q - 10)/5 + 1` further encode attempts. -/
theorem retailLoop_total (f : Int → Nat) :
    ∀ (fuel : Nat) (q : Int) (it : Nat), 10 ≤ q →
      (q.toNat - 10) / 5 < fuel →
      ∃ s q' i, retailLoop (fun x => some (f x)) q it fuel = .ok s q' i ∧
        i ≤ it + (q.toNat - 10) / 5 + 1 := by
  intro fuel
  induction fuel with
  | zero => intro q it h1 h2; omega
  | succ n ih =>
    intro q it h1 h2
    simp only [retailLoop]
    by_cases hs : f q < 512000
    · exact ⟨f q, q, it + 1, by simp [hs], by omega⟩
    · by_cases hq : q - 5 < 10
      · exact ⟨f q, q, it + 1, by simp [hs, hq], by omega⟩
      · have h10 : 10 ≤ q - 5 := by omega
        have hlt : ((q - 5).toNat - 10) / 5 < n := by omega
        obtain ⟨s, q', i, heq, hle⟩ := ih (q - 5) (it + 1) h10 hlt
        refine ⟨s, q', i, by simp [hs, hq, heq], ?_⟩
        have ht : (q - 5).toNat = q.toNat - 5 := by omega
        omega

/-- If the first `k` attempted qualities `q, q-5, …, q-5(k-1)` all miss the
budget and the attempt at `q - 5k` meets it, the loop returns exactly that
attempt, at iteration `it + k + 1`. -/
theorem retailLoop_first (f : Int → Nat) :
    ∀ (k fuel : Nat) (q : Int) (it : Nat),
      10 ≤ q - 5 * (k : Int) → k < fuel →
      (∀ j : Nat, j < k → 512000 ≤ f (q - 5 * (j : Int))) →
      f (q - 5 * (k : Int)) < 512000 →
      retailLoop (fun x => some (f x)) q it fuel =
        .ok (f (q - 5 * (k : Int))) (q - 5 * (k : Int)) (it + k + 1) := by
  intro k
  induction k with
  | zero =>
    intro fuel q it hq hf _ hk
    obtain ⟨m, rfl⟩ : ∃ m, fuel = m + 1 := ⟨fuel - 1, by omega⟩
    simp only [Nat.cast_zero, mul_zero, sub_zero] at hk ⊢
    simp only [retailLoop]
    simp [hk]
  | succ k ih =>
    intro fuel q it hq hfuel hmiss hk
    obtain ⟨m, rfl⟩ : ∃ m, fuel = m + 1 := ⟨fuel - 1, by omega⟩
    have h0 : 512000 ≤ f q := by simpa using hmiss 0 (Nat.succ_pos k)
    push_cast at hq hk ⊢
    have e : q - 5 * ((k : Int) + 1) = q - 5 - 5 * (k : Int) := by ring
    rw [e] at hk ⊢
    rw [show it + (k + 1) + 1 = it + 1 + k + 1 from by omega]
    simp only [retailLoop]
    rw [if_neg (by omega), if_neg (by omega)]
    refine ih m (q - 5) (it + 1) (by omega) (by omega) ?_ hk
    intro j hj
    have e2 : q - 5 - 5 * (j : Int) = q - 5 * (((j + 1 : Nat) : Int)) := by
      push_cast; ring
    rw [e2]
    exact hmiss (j + 1) (by omega)

/-- When every quality in the attempted range misses the budget, the loop
walks down to quality 10 and returns that last encode as best effort. -/
theorem retailLoop_miss (f : Int → Nat)
    (H : ∀ q : Int, 10 ≤ q → q ≤ 95 → 512000 ≤ f q) :
    ∀ (fuel : Nat) (q : Int) (it : Nat),
      10 ≤ q → q ≤ 95 → (5 : Int) ∣ q → (q.toNat - 10) / 5 < fuel →
      retailLoop (fun x => some (f x)) q it fuel =
        .ok (f 10) 10 (it + (q.toNat - 10) / 5 + 1) := by
  intro fuel
  induction fuel with
  | zero => intro q it h1 h2 h3 h4; omega
  | succ n ih =>
    intro q it h1 h2 hdvd hfuel
    obtain ⟨c, rfl⟩ := hdvd
    simp only [retailLoop]
    rw [if_neg (by have := H (5 * c) h1 h2; omega)]
    by_cases hq : 5 * c - 5 < 10
    · have hc : c = 2 := by omega
      subst hc
      rw [if_pos (by omega)]
      norm_num
    · rw [if_neg hq]
      have e : 5 * c - 5 = 5 * (c - 1) := by ring
      rw [e, ih (5 * (c - 1)) (it + 1) (by omega) (by omega) ⟨c - 1, rfl⟩ (by omega)]
      congr 1
      omega

/-- Iteration bound for the export loop. -/
theorem exportLoop_iter_le (sz : Int → Nat → Nat → Nat) (tgt : Nat) :
    ∀ (fuel : Nat) (q : Int) (w h cur : Nat) (data : ExpData) (it : Nat),
      (exportLoop sz tgt q w h cur data it fuel).iteration ≤ it + fuel := by
  intro fuel
  induction fuel with
  | zero => intro q w h cur data it; simp [exportLoop]
  | succ n ih =>
    intro q w h cur data it
    simp only [exportLoop]
    split_ifs with h1
    · simp
    · exact le_trans (ih _ _ _ _ _ _) (by omega)

/-- If the loop is not entered (current size at most target, or no fuel
left), the state is returned unchanged. -/
theorem exportLoop_stop (sz : Int → Nat → Nat → Nat) (tgt : Nat)
    (fuel : Nat) (q : Int) (w h cur : Nat) (data : ExpData) (it : Nat)
    (hcur : cur ≤ tgt) :
    exportLoop sz tgt q w h cur data it fuel = ⟨data, cur, q, w, h, it⟩ := by
  cases fuel with
  | zero => simp [exportLoop]
  | succ n => simp [exportLoop, hcur]

/-- If the first `k - 1` schedule points all exceed the target and the
`k`-th is at most the target, the loop stops at the `k`-th attempt and
returns it.  The quality/dimension schedule is the iterates of `stepQ` and
`stepDim` and is independent of the measured sizes. -/
theorem exportLoop_reach (sz : Int → Nat → Nat → Nat) (tgt : Nat) :
    ∀ (k fuel : Nat) (q : Int) (w h cur : Nat) (data : ExpData) (it : Nat),
      1 ≤ k → k ≤ fuel → tgt < cur →
      (∀ j, 1 ≤ j → j < k →
        tgt < sz (stepQ^[j] q) (stepDim^[j] w) (stepDim^[j] h)) →
      sz (stepQ^[k] q) (stepDim^[k] w) (stepDim^[k] h) ≤ tgt →
      exportLoop sz tgt q w h cur data it fuel =
        ⟨.encoded (stepQ^[k] q) (stepDim^[k] w) (stepDim^[k] h),
         sz (stepQ^[k] q) (stepDim^[k] w) (stepDim^[k] h),
         stepQ^[k] q, stepDim^[k] w, stepDim^[k] h, it + k⟩ := by
  intro k
  induction k with
  | zero => intro fuel q w h cur data it h1; omega
  | succ k ih =>
    intro fuel q w h cur data it h1 hf hcur hmiss hhit
    obtain ⟨m, rfl⟩ : ∃ m, fuel = m + 1 := ⟨fuel - 1, by omega⟩
    simp only [exportLoop]
    rw [if_neg (by omega)]
    by_cases hk : k = 0
    · subst hk
      simp only [zero_add, Function.iterate_one] at hhit ⊢
      rw [exportLoop_stop sz tgt m _ _ _ _ _ _ hhit]
    · rw [show it + (k + 1) = (it + 1) + k from by omega]
      simp only [Function.iterate_succ_apply] at hhit ⊢
      refine ih m (stepQ q) (stepDim w) (stepDim h) _ _ (it + 1)
        (by omega) (by omega) ?_ ?_ hhit
      · have := hmiss 1 le_rfl (by omega)
        simpa using this
      · intro j hj1 hj2
        have := hmiss (j + 1) (by omega) (by omega)
        simpa [Function.iterate_succ_apply] using this

/-- When every schedule point up to the fuel bound exceeds the target, the
loop runs to `max_iterations` and returns the last attempt. -/
theorem exportLoop_missAll (sz : Int → Nat → Nat → Nat) (tgt : Nat) :
    ∀ (fuel : Nat) (q : Int) (w h cur : Nat) (data : ExpData) (it : Nat),
      1 ≤ fuel → tgt < cur →
      (∀ j, 1 ≤ j → j ≤ fuel →
        tgt < sz (stepQ^[j] q) (stepDim^[j] w) (stepDim^[j] h)) →
      exportLoop sz tgt q w h cur data it fuel =
        ⟨.encoded (stepQ^[fuel] q) (stepDim^[fuel] w) (stepDim^[fuel] h),
         sz (stepQ^[fuel] q) (stepDim^[fuel] w) (stepDim^[fuel] h),
         stepQ^[fuel] q, stepDim^[fuel] w, stepDim^[fuel] h, it + fuel⟩ := by
  intro fuel
  induction fuel with
  | zero => intro q w h cur data it h1; omega
  | succ m ih =>
    intro q w h cur data it h1 hcur hmiss
    simp only [exportLoop]
    rw [if_neg (by omega)]
    by_cases hm : m = 0
    · subst hm
      simp [exportLoop, Function.iterate_one]
    · rw [show it + (m + 1) = (it + 1) + m from by omega]
      simp only [Function.iterate_succ_apply]
      refine ih (stepQ q) (stepDim w) (stepDim h) _ _ (it + 1) (by omega) ?_ ?_
      · have := hmiss 1 le_rfl (by omega)
        simpa using this
      · intro j hj1 hj2
        have := hmiss (j + 1) (by omega) (by omega)
        simpa [Function.iterate_succ_apply] using this

/-- A rescale step never produces a dimension below the 100-pixel floor. -/
theorem stepDim_ge (w : Nat) : 100 ≤ stepDim w := le_max_left _ _

/-- A rescale step never grows a dimension that is at least the floor. -/
theorem stepDim_le (w : Nat) (h : 100 ≤ w) : stepDim w ≤ w := by
  simp only [stepDim, scale95]
  omega

/-- A rescale step strictly shrinks any dimension above the floor. -/
theorem stepDim_lt (w : Nat) (h : 100 < w) : stepDim w < w := by
  simp only [stepDim, scale95]
  omega

/-- A quality step never drops the export quality below 10. -/
theorem stepQ_ge (q : Int) : 10 ≤ stepQ q := le_max_left _ _

/-- The export loop never lets a dimension drop below 100: the final width
and height are at least `min 100 w` and `min 100 h` for initial dimensions
`w, h` (hence at least 100 whenever the loop started at or above 100). -/
theorem exportLoop_width_ge (sz : Int → Nat → Nat → Nat) (tgt : Nat) :
    ∀ (fuel : Nat) (q : Int) (w h cur : Nat) (data : ExpData) (it : Nat),
      min 100 w ≤ (exportLoop sz tgt q w h cur data it fuel).width ∧
      min 100 h ≤ (exportLoop sz tgt q w h cur data it fuel).height := by
  intro fuel
  induction fuel with
  | zero => intro q w h cur data it; simp [exportLoop]
  | succ n ih =>
    intro q w h cur data it
    simp only [exportLoop]
    split_ifs with h1
    · simp
    · constructor
      · refine le_trans ?_ (ih (stepQ q) (stepDim w) (stepDim h) _ _ (it + 1)).1
        have := stepDim_ge w
        omega
      · refine le_trans ?_ (ih (stepQ q) (stepDim w) (stepDim h) _ _ (it + 1)).2
        have := stepDim_ge h
        omega

/-- The export loop never lets the quality drop below 10: the final quality
is at least `min 10 q` for initial quality `q`. -/
theorem exportLoop_quality_ge (sz : Int → Nat → Nat → Nat) (tgt : Nat) :
    ∀ (fuel : Nat) (q : Int) (w h cur : Nat) (data : ExpData) (it : Nat),
      min 10 q ≤ (exportLoop sz tgt q w h cur data it fuel).quality := by
  intro fuel
  induction fuel with
  | zero => intro q w h cur data it; simp [exportLoop]
  | succ n ih =>
    intro q w h cur data it
    simp only [exportLoop]
    split_ifs with h1
    · simp
    · refine le_trans ?_ (ih (stepQ q) (stepDim w) (stepDim h) _ _ (it + 1))
      have := stepQ_ge q
      omega

/-- If the MODULE_C loop guard fails, the state is returned unchanged,
independently of the remaining fuel. -/
theorem mcLoop_stop (sz : Int → Option Nat) (s : Nat) (file : McData)
    (q : Int) (it fuel : Nat) (hg : ¬(512000 < s ∧ 65 ≤ q)) :
    mcLoop sz s file q it fuel = some ⟨file, s, it⟩ := by
  cases fuel with
  | zero => simp [mcLoop]
  | succ n => simp [mcLoop, hg]

/-- Iteration bound for the MODULE_C loop. -/
theorem mcLoop_iter_le (sz : Int → Option Nat) :
    ∀ (fuel : Nat) (s : Nat) (file : McData) (q : Int) (it : Nat)
      (r : McResult), mcLoop sz s file q it fuel = some r →
      r.iteration ≤ it + fuel := by
  intro fuel
  induction fuel with
  | zero =>
    intro s file q it r h
    simp only [mcLoop, Option.some.injEq] at h
    subst h
    simp
  | succ n ih =>
    intro s file q it r h
    simp only [mcLoop] at h
    split_ifs at h with hg
    · cases hsz : sz (q - 5) with
      | none => rw [hsz] at h; simp at h
      | some s' =>
        rw [hsz] at h
        simp only at h
        exact le_trans (ih _ _ _ _ _ h) (by omega)
    · simp only [Option.some.injEq] at h
      subst h
      simp

/-- Once the caller's file has been overwritten by a save, it never reverts
to its original content. -/
theorem mcLoop_file_encoded (sz : Int → Option Nat) :
    ∀ (fuel : Nat) (s : Nat) (file : McData) (q : Int) (it : Nat)
      (r : McResult), file ≠ .orig → mcLoop sz s file q it fuel = some r →
      r.file ≠ .orig := by
  intro fuel
  induction fuel with
  | zero =>
    intro s file q it r hfile h
    simp only [mcLoop, Option.some.injEq] at h
    rw [← h]
    exact hfile
  | succ n ih =>
    intro s file q it r hfile h
    simp only [mcLoop] at h
    split_ifs at h with hg
    · cases hsz : sz (q - 5) with
      | none => rw [hsz] at h; simp at h
      | some s' =>
        rw [hsz] at h
        simp only at h
        exact ih _ _ _ _ _ (by simp) h
    · simp only [Option.some.injEq] at h
      rw [← h]
      exact hfile

/-- When every attempted save (qualities 90 down to 60) stays over the
500 KB budget, the MODULE_C loop walks quality down in steps of 5 and stops
after the save at quality 60, one full step below `QUALITY_MIN = 65`. -/
theorem mcLoop_miss (f : Int → Nat)
    (H : ∀ q : Int, 60 ≤ q → q ≤ 90 → 512000 < f q) :
    ∀ (fuel : Nat) (s : Nat) (file : McData) (q : Int) (it : Nat),
      512000 < s → 65 ≤ q → q ≤ 95 → (5 : Int) ∣ q →
      (q.toNat - 60) / 5 ≤ fuel →
      mcLoop (fun x => some (f x)) s file q it fuel =
        some ⟨.encoded 60, f 60, it + (q.toNat - 60) / 5⟩ := by
  intro fuel
  induction fuel with
  | zero => intro s file q it h1 h2 h3 hdvd hf; omega
  | succ n ih =>
    intro s file q it h1 h2 h3 hdvd hf
    obtain ⟨c, rfl⟩ := hdvd
    simp only [mcLoop]
    rw [if_pos ⟨h1, h2⟩]
    by_cases hq : 65 ≤ 5 * c - 5
    · have e : 5 * c - 5 = 5 * (c - 1) := by ring
      have hm := H (5 * c - 5) (by omega) (by omega)
      rw [e] at hm ⊢
      rw [ih (f (5 * (c - 1))) (.encoded (5 * (c - 1))) (5 * (c - 1)) (it + 1)
        hm (by omega) (by omega) ⟨c - 1, rfl⟩ (by omega)]
      congr 2
      omega
    · have hc : c = 13 := by omega
      subst hc
      have e : (5 : Int) * 13 - 5 = 60 := by norm_num
      rw [e]
      rw [mcLoop_stop _ _ _ _ _ _ (by omega), Option.some.injEq,
        McResult.mk.injEq]
      refine ⟨rfl, rfl, by omega⟩

/-! Claim theorems. -/

/-- C1 counterexample: the second half of the claim fails on
`optimize_export`.  Its loop stops at the first attempt whose size is *at
most* `target_bytes` (guard `current_size > target_bytes`), so with a
codec whose first scheduled attempt (quality 80, 190×190) encodes to
exactly 512000 bytes the function returns 512000 bytes — not strictly
under budget, i.e. `metBudget = false` — even though the very next
schedule point (quality 75, 180×180, within the configured quality/scale
range) encodes strictly under the budget. -/
theorem C1_counterexample :
    optimize_export (fun q w _ => if q = 80 ∧ w = 190 then 512000 else 100)
        600000 200 200 500 10 =
      ⟨.encoded 80 190 190, 512000, 80, 190, 190, 1⟩ ∧
    (if (75 : Int) = 80 ∧ (180 : Nat) = 190 then (512000 : Nat) else 100) < 512000 ∧
    stepQ^[2] (85 : Int) = 75 ∧ stepDim^[2] 200 = 180 ∧
    ¬ (optimize_export (fun q w _ => if q = 80 ∧ w = 190 then 512000 else 100)
        600000 200 200 500 10).size < 512000 := by
  refine ⟨by decide, by decide, by decide, by decide, by decide⟩

/-- C1 (amended): first success wins, with the stopping threshold as the
code has it.  For `optimize_for_retail`: as soon as an attempted quality
(schedule 95, 90, …) encodes strictly under 512000 bytes the loop returns
that encoding, its quality and its iteration immediately, so whenever any
attempted quality meets the budget the result is strictly under budget
(`metBudget = true`).  For `optimize_export`: the loop stops at the first
scheduled attempt whose size is at most `targetBytes` and returns exactly
that attempt; the returned size need not be strictly under the target
(see the counterexample). -/
theorem C1_first_success :
    (∀ (f : Int → Nat) (k : Nat), k ≤ 17 →
      (∀ j : Nat, j < k → 512000 ≤ f (95 - 5 * (j : Int))) →
      f (95 - 5 * (k : Int)) < 512000 →
      optimize_for_retail (fun x => some (f x)) =
        .ok (f (95 - 5 * (k : Int))) (95 - 5 * (k : Int)) (k + 1)) ∧
    (∀ (sz : Int → Nat → Nat → Nat) (len0 w0 h0 tgtKB mIter k : Nat),
      1 ≤ k → k ≤ mIter → tgtKB * 1024 < len0 →
      (∀ j, 1 ≤ j → j < k →
        tgtKB * 1024 < sz (stepQ^[j] 85) (stepDim^[j] w0) (stepDim^[j] h0)) →
      sz (stepQ^[k] 85) (stepDim^[k] w0) (stepDim^[k] h0) ≤ tgtKB * 1024 →
      optimize_export sz len0 w0 h0 tgtKB mIter =
        ⟨.encoded (stepQ^[k] 85) (stepDim^[k] w0) (stepDim^[k] h0),
         sz (stepQ^[k] 85) (stepDim^[k] w0) (stepDim^[k] h0),
         stepQ^[k] 85, stepDim^[k] w0, stepDim^[k] h0, k⟩) := by
  constructor
  · intro f k hk hmiss hhit
    have h10 : 10 ≤ (95 : Int) - 5 * (k : Int) := by omega
    simpa [optimize_for_retail] using
      retailLoop_first f k 20 95 0 h10 (by omega) hmiss hhit
  · intro sz len0 w0 h0 tgtKB mIter k h1 h2 h3 hmiss hhit
    simpa [optimize_export] using
      exportLoop_reach sz (tgtKB * 1024) k mIter 85 w0 h0 len0 .orig 0
        h1 h2 h3 hmiss hhit

/-- Witness for C1: a retail codec that misses at 95 and hits at 90
returns the quality-90 encode at iteration 2; an export codec that hits
at its first scheduled attempt returns that attempt at iteration 1. -/
theorem C1_witness :
    optimize_for_retail (fun x => some (if x ≤ 90 then 400000 else 600000)) =
      .ok 400000 90 2 ∧
    optimize_export (fun _ _ _ => 100) 600000 200 200 500 10 =
      ⟨.encoded 80 190 190, 100, 80, 190, 190, 1⟩ := by
  constructor
  · have h := C1_first_success.1 (fun x => if x ≤ 90 then (400000 : Nat) else 600000)
      1 (by omega)
      (by
        intro j hj
        have hj0 : j = 0 := by omega
        subst hj0
        norm_num)
      (by norm_num)
    exact h.trans (by decide)
  · have h := C1_first_success.2 (fun _ _ _ => 100) 600000 200 200 500 10 1
      (by omega) (by omega) (by omega)
      (by intro j hj1 hj2; omega)
      (by decide)
    exact h.trans (by decide)

/-- C2: bounded termination.  All three loop variants are structurally
bounded: any buffer `optimize_for_retail` returns was produced within 20
encode attempts; `optimize_export` performs at most `maxIterations`
passes (one encode per pass); any normal return of
`recursive_optimize_export` performed at most 20 passes (one save per
pass).  The models recurse on fuel equal to the iteration cap, so no run
exceeds it. -/
theorem C2_bounded_iterations :
    (∀ (enc : Int → Option Nat) (s : Nat) (q : Int) (i : Nat),
      optimize_for_retail enc = .ok s q i → i ≤ 20) ∧
    (∀ (sz : Int → Nat → Nat → Nat) (len0 w0 h0 tgtKB mIter : Nat),
      (optimize_export sz len0 w0 h0 tgtKB mIter).iteration ≤ mIter) ∧
    (∀ (sz : Int → Option Nat) (len0 : Nat) (r : McResult),
      recursive_optimize_export sz len0 = some r → r.iteration ≤ 20) := by
  refine ⟨?_, ?_, ?_⟩
  · intro enc s q i h
    simpa using retailLoop_iter_le enc 20 95 0 s q i h
  · intro sz len0 w0 h0 tgtKB mIter
    simpa [optimize_export] using
      exportLoop_iter_le sz (tgtKB * 1024) mIter 85 w0 h0 len0 .orig 0
  · intro sz len0 r h
    unfold recursive_optimize_export at h
    split_ifs at h with hl
    · simp only [Option.some.injEq] at h
      subst h
      simp
    · simpa using mcLoop_iter_le sz 20 len0 .orig 95 0 r h

/-- Witness for C2 at concrete inputs: a codec that always hits the
budget immediately. -/
theorem C2_witness :
    (1 : Nat) ≤ 20 ∧
    (optimize_export (fun _ _ _ => 100) 600000 200 200 500 10).iteration ≤ 10 ∧
    McResult.iteration ⟨.encoded 90, 100, 1⟩ ≤ 20 := by
  refine ⟨C2_bounded_iterations.1 (fun _ => some 100) 100 95 1 (by decide),
    C2_bounded_iterations.2.1 (fun _ _ _ => 100) 600000 200 200 500 10,
    C2_bounded_iterations.2.2 (fun _ => some 100) 600000 ⟨.encoded 90, 100, 1⟩
      (by decide)⟩

/-- C3: budget-miss is a soft outcome, never an error.  With a codec that
never meets the budget, `optimize_for_retail` returns (does not raise) the
last encoded attempt — quality 10 at iteration 18 — whose size is still
over budget (`metBudget = false`); `optimize_export` with every scheduled
attempt over budget runs to `maxIterations` and returns the last attempt,
whose size is over budget. -/
theorem C3_budget_miss_soft :
    (∀ f : Int → Nat, (∀ q : Int, 10 ≤ q → q ≤ 95 → 512000 ≤ f q) →
      optimize_for_retail (fun x => some (f x)) = .ok (f 10) 10 18 ∧
      512000 ≤ f 10) ∧
    (∀ (sz : Int → Nat → Nat → Nat) (len0 w0 h0 tgtKB mIter : Nat),
      1 ≤ mIter → tgtKB * 1024 < len0 →
      (∀ j, 1 ≤ j → j ≤ mIter →
        tgtKB * 1024 < sz (stepQ^[j] 85) (stepDim^[j] w0) (stepDim^[j] h0)) →
      optimize_export sz len0 w0 h0 tgtKB mIter =
        ⟨.encoded (stepQ^[mIter] 85) (stepDim^[mIter] w0) (stepDim^[mIter] h0),
         sz (stepQ^[mIter] 85) (stepDim^[mIter] w0) (stepDim^[mIter] h0),
         stepQ^[mIter] 85, stepDim^[mIter] w0, stepDim^[mIter] h0, mIter⟩ ∧
      tgtKB * 1024 < (optimize_export sz len0 w0 h0 tgtKB mIter).size) := by
  constructor
  · intro f H
    refine ⟨?_, H 10 (by norm_num) (by norm_num)⟩
    simpa [optimize_for_retail] using
      retailLoop_miss f H 20 95 0 (by norm_num) (by norm_num)
        ⟨19, by norm_num⟩ (by decide)
  · intro sz len0 w0 h0 tgtKB mIter h1 h2 hmiss
    have heq : optimize_export sz len0 w0 h0 tgtKB mIter =
        ⟨.encoded (stepQ^[mIter] 85) (stepDim^[mIter] w0) (stepDim^[mIter] h0),
         sz (stepQ^[mIter] 85) (stepDim^[mIter] w0) (stepDim^[mIter] h0),
         stepQ^[mIter] 85, stepDim^[mIter] w0, stepDim^[mIter] h0, mIter⟩ := by
      simpa [optimize_export] using
        exportLoop_missAll sz (tgtKB * 1024) mIter 85 w0 h0 len0 .orig 0
          h1 h2 hmiss
    refine ⟨heq, ?_⟩
    rw [heq]
    exact hmiss mIter h1 le_rfl

/-- Witness for C3: constant 600000-byte codecs never meet a 500 KB
budget; both loops return their last attempt normally. -/
theorem C3_witness :
    (optimize_for_retail (fun _ => some 600000) = .ok 600000 10 18 ∧
      (512000 : Nat) ≤ 600000) ∧
    (optimize_export (fun _ _ _ => 600000) 600000 120 120 500 10 =
        ⟨.encoded (stepQ^[10] 85) (stepDim^[10] 120) (stepDim^[10] 120),
         600000, stepQ^[10] 85, stepDim^[10] 120, stepDim^[10] 120, 10⟩ ∧
      (500 * 1024 : Nat) <
        (optimize_export (fun _ _ _ => 600000) 600000 120 120 500 10).size) := by
  refine ⟨C3_budget_miss_soft.1 (fun _ => 600000) ?_,
    C3_budget_miss_soft.2 (fun _ _ _ => 600000) 600000 120 120 500 10
      (by omega) (by omega) ?_⟩
  · intro q h1 h2
    norm_num
  · intro j h1 h2
    norm_num

/-- C4 counterexample: `recursive_optimize_export` with every save staying
over the 500 KB budget performs its final save at quality 60 — one full
`QUALITY_STEP` *below* `QUALITY_MIN = 65` — because the loop decrements
quality before saving and only re-checks `quality >= QUALITY_MIN` at the
top of the next pass.  The returned quality is therefore 60, not pinned
at 65 as the claim states. -/
theorem C4_counterexample :
    recursive_optimize_export (fun _ => some 600000) 600000 =
      some ⟨.encoded 60, 600000, 7⟩ ∧
    recursive_optimize_export (fun _ => some 600000) 600000 ≠
      some ⟨.encoded 65, 600000, 7⟩ := by
  refine ⟨by decide, by decide⟩

/-- C4 (amended): when the budget is unreachable by quality reduction
alone, the MODULE_C loop stops after one final encode at
`QUALITY_MIN - QUALITY_STEP = 60` (not at `QUALITY_MIN = 65`): the
returned file is the quality-60 save, after exactly 7 passes
(qualities 90, 85, 80, 75, 70, 65, 60). -/
theorem C4_min_quality_step_below (f : Int → Nat)
    (H : ∀ q : Int, 60 ≤ q → q ≤ 90 → 512000 < f q) (len0 : Nat)
    (hlen : 512000 < len0) :
    recursive_optimize_export (fun x => some (f x)) len0 =
      some ⟨.encoded 60, f 60, 7⟩ := by
  unfold recursive_optimize_export
  rw [if_neg (by omega)]
  simpa using
    mcLoop_miss f H 20 len0 .orig 95 0 hlen (by norm_num) (by norm_num)
      ⟨19, by norm_num⟩ (by decide)

/-- Witness for C4 (amended) at a concrete over-budget codec. -/
theorem C4_witness :
    recursive_optimize_export (fun _ => some 700000) 800000 =
      some ⟨.encoded 60, 700000, 7⟩ :=
  C4_min_quality_step_below (fun _ => 700000) (by intro q h1 h2; norm_num)
    800000 (by omega)

/-- C5 counterexample: an input already under budget is returned as-is
with *zero* encodes.  `optimize_export` initializes
`current_size = len(image_data)` and `optimized_data = image_data`, so a
1000-byte input never enters the loop and the returned bytes are the
original container data (`ExpData.orig`), not an encode at
`startQuality`; `recursive_optimize_export` likewise returns the path
immediately when `os.path.getsize` is at most 500 KB, trusting the
container-level byte count the claim says is not trusted. -/
theorem C5_counterexample :
    optimize_export (fun _ _ _ => 999) 1000 200 200 500 10 =
      ⟨.orig, 1000, 85, 200, 200, 0⟩ ∧
    recursive_optimize_export (fun _ => some 999) 1000 =
      some ⟨.orig, 1000, 0⟩ := by
  refine ⟨by decide, by decide⟩

/-- C5 (amended): already-under-budget inputs are returned as-is, with no
encode performed: the container-level byte count is trusted, the working
data stays the caller's original bytes, and `iteration = 0`.  (Only
`optimize_for_retail`, which neither cited function, always encodes at
least once.) -/
theorem C5_under_budget_returns_original :
    (∀ (sz : Int → Nat → Nat → Nat) (len0 w0 h0 tgtKB mIter : Nat),
      len0 ≤ tgtKB * 1024 →
      optimize_export sz len0 w0 h0 tgtKB mIter =
        ⟨.orig, len0, 85, w0, h0, 0⟩) ∧
    (∀ (sz : Int → Option Nat) (len0 : Nat), len0 ≤ 512000 →
      recursive_optimize_export sz len0 = some ⟨.orig, len0, 0⟩) := by
  constructor
  · intro sz len0 w0 h0 tgtKB mIter hl
    exact exportLoop_stop sz (tgtKB * 1024) mIter 85 w0 h0 len0 .orig 0 hl
  · intro sz len0 hl
    simp [recursive_optimize_export, hl]

/-- Witness for C5 (amended): a 500-byte input is returned untouched even
when the codec would fail if called. -/
theorem C5_witness :
    optimize_export (fun _ _ _ => 0) 500 64 64 500 10 =
      ⟨.orig, 500, 85, 64, 64, 0⟩ ∧
    recursive_optimize_export (fun _ => none) 500 = some ⟨.orig, 500, 0⟩ :=
  ⟨C5_under_budget_returns_original.1 (fun _ _ _ => 0) 500 64 64 500 10
      (by omega),
   C5_under_budget_returns_original.2 (fun _ => none) 500 (by omega)⟩

/-- C6: rescale-mode floors.  Every pass of `optimize_export` sets
`quality = max(10, quality - 5)` (never below 10) and each dimension to
`max(100, int(dim * 0.95))` (never below 100, non-increasing at or above
100, strictly shrinking above 100); over a whole run the final quality is
at least 10 and neither final dimension drops below
`min 100 initialDimension`.  In the spec's scenario — a 120×120 source
with every scheduled attempt over budget — the dimensions walk
114, 108, 102, 100, … and the loop ends at `maxIterations = 10` with
quality 35, dimensions 100×100 and an over-budget size
(`metBudget = false`). -/
theorem C6_rescale_floors :
    (∀ q : Int, 10 ≤ stepQ q) ∧
    (∀ w : Nat, 100 ≤ stepDim w) ∧
    (∀ w : Nat, 100 ≤ w → stepDim w ≤ w) ∧
    (∀ w : Nat, 100 < w → stepDim w < w) ∧
    (∀ (sz : Int → Nat → Nat → Nat) (len0 w0 h0 tgtKB mIter : Nat),
      min 100 w0 ≤ (optimize_export sz len0 w0 h0 tgtKB mIter).width ∧
      min 100 h0 ≤ (optimize_export sz len0 w0 h0 tgtKB mIter).height ∧
      10 ≤ (optimize_export sz len0 w0 h0 tgtKB mIter).quality) ∧
    (∀ (sz : Int → Nat → Nat → Nat) (len0 : Nat), 512000 < len0 →
      (∀ j, 1 ≤ j → j ≤ 10 →
        512000 < sz (stepQ^[j] 85) (stepDim^[j] 120) (stepDim^[j] 120)) →
      optimize_export sz len0 120 120 500 10 =
        ⟨.encoded 35 100 100, sz 35 100 100, 35, 100, 100, 10⟩) := by
  refine ⟨stepQ_ge, stepDim_ge, stepDim_le, stepDim_lt, ?_, ?_⟩
  · intro sz len0 w0 h0 tgtKB mIter
    refine ⟨(exportLoop_width_ge sz (tgtKB * 1024) mIter 85 w0 h0 len0 .orig 0).1,
      (exportLoop_width_ge sz (tgtKB * 1024) mIter 85 w0 h0 len0 .orig 0).2, ?_⟩
    have h := exportLoop_quality_ge sz (tgtKB * 1024) mIter 85 w0 h0 len0 .orig 0
    simp only [optimize_export]
    omega
  · intro sz len0 hlen hmiss
    have e1 : stepQ^[10] (85 : Int) = 35 := by decide
    have e2 : stepDim^[10] (120 : Nat) = 100 := by decide
    have h := exportLoop_missAll sz (500 * 1024) 10 85 120 120 len0 .orig 0
      (by omega) (by omega) (by simpa using hmiss)
    rw [e1, e2] at h
    simpa [optimize_export] using h

/-- Witness for C6: the general floors at quality 50 and width 120, and
the 120×120 unreachable-budget scenario with a constant 600000-byte
codec. -/
theorem C6_witness :
    (10 : Int) ≤ stepQ 50 ∧ 100 ≤ stepDim 120 ∧ stepDim 120 ≤ 120 ∧
    stepDim 120 < 120 ∧
    min 100 120 ≤
      (optimize_export (fun _ _ _ => 600000) 600000 120 120 500 10).width ∧
    optimize_export (fun _ _ _ => 600000) 600000 120 120 500 10 =
      ⟨.encoded 35 100 100, 600000, 35, 100, 100, 10⟩ :=
  ⟨C6_rescale_floors.1 50, C6_rescale_floors.2.1 120,
   C6_rescale_floors.2.2.1 120 (by omega),
   C6_rescale_floors.2.2.2.1 120 (by omega),
   (C6_rescale_floors.2.2.2.2.1 (fun _ _ _ => 600000) 600000 120 120 500 10).1,
   C6_rescale_floors.2.2.2.2.2 (fun _ _ _ => 600000) 600000 (by omega)
     (by intro j h1 h2; norm_num)⟩

/-- C7 counterexample: an `LA`-mode image (gray with alpha) has an alpha
channel, but `optimize_for_retail` sends it through `convert("RGB")`,
which *drops* the alpha instead of compositing over white: the fully
transparent black pixel comes out black where flattening onto a solid
white background yields white.  `recursive_optimize_export` does not
convert `LA` at all, so its working image still has an alpha channel when
passed to the encoder. -/
theorem C7_counterexample :
    retailPreprocess ⟨.LA, [.la 0 0]⟩ = ⟨.RGB, [.rgb 0 0 0]⟩ ∧
    specFlattenWhite ⟨.LA, [.la 0 0]⟩ = ⟨.RGB, [.rgb 255 255 255]⟩ ∧
    retailPreprocess ⟨.LA, [.la 0 0]⟩ ≠ specFlattenWhite ⟨.LA, [.la 0 0]⟩ ∧
    mcPreprocess ⟨.LA, [.la 0 0]⟩ = ⟨.LA, [.la 0 0]⟩ ∧
    hasAlpha (mcPreprocess ⟨.LA, [.la 0 0]⟩).mode = true := by
  refine ⟨by decide, by decide, by decide, by decide, by decide⟩

/-- C7 (amended): only `RGBA` inputs are flattened onto an opaque solid
white background (by both `optimize_for_retail` and
`recursive_optimize_export`); alpha in any other mode is dropped by
`convert("RGB")` (retail) or left in place (MODULE_C).  The retail
working image never carries an alpha channel, whatever the input
mode. -/
theorem C7_alpha_flattening (img : Img) (hm : img.mode = .RGBA)
    (hp : ∀ p ∈ img.px, p.isRGBA = true) (i : Img) :
    retailPreprocess img = specFlattenWhite img ∧
    mcPreprocess img = specFlattenWhite img ∧
    hasAlpha (retailPreprocess i).mode = false := by
  have hflat : flattenWhite img = specFlattenWhite img := by
    simp only [flattenWhite, specFlattenWhite, Img.mk.injEq, true_and]
    refine List.map_congr_left ?_
    intro p hpmem
    have := hp p hpmem
    cases p with
    | rgba r g b a => rfl
    | rgb r g b => simp [Pixel.isRGBA] at this
    | la l a => simp [Pixel.isRGBA] at this
    | gray v => simp [Pixel.isRGBA] at this
  refine ⟨?_, ?_, ?_⟩
  · rw [retailPreprocess, if_pos (by rw [hm]; intro hc; cases hc),
      if_pos hm]
    exact hflat
  · rw [mcPreprocess, if_pos hm]
    exact hflat
  · rw [retailPreprocess]
    split_ifs with h1 h2
    · simp [flattenWhite, hasAlpha]
    · simp [convertRGB, hasAlpha]
    · push_neg at h1
      rw [h1]
      simp [hasAlpha]

/-- Witness for C7 (amended): a one-pixel transparent RGBA image is
flattened to white by both preprocessors, and the retail working image of
an `LA` input has no alpha. -/
theorem C7_witness :
    retailPreprocess ⟨.RGBA, [.rgba 10 20 30 0]⟩ =
      specFlattenWhite ⟨.RGBA, [.rgba 10 20 30 0]⟩ ∧
    mcPreprocess ⟨.RGBA, [.rgba 10 20 30 0]⟩ =
      specFlattenWhite ⟨.RGBA, [.rgba 10 20 30 0]⟩ ∧
    hasAlpha (retailPreprocess ⟨.LA, [.la 7 9]⟩).mode = false :=
  C7_alpha_flattening ⟨.RGBA, [.rgba 10 20 30 0]⟩ rfl (by decide)
    ⟨.LA, [.la 7 9]⟩

/-- C8 counterexample: `recursive_optimize_export` persists into the
caller's file: after a run whose first save meets the budget, the file at
`file_path` holds the quality-90 JPEG, not the caller's original bytes —
the source image was overwritten (mutated) by the optimizer. -/
theorem C8_counterexample :
    recursive_optimize_export (fun _ => some 400000) 600000 =
      some ⟨.encoded 90, 400000, 1⟩ ∧
    McData.encoded 90 ≠ McData.orig := by
  refine ⟨by decide, by decide⟩

/-- C8 (amended): the in-memory variants are pure functions of their
inputs (they allocate fresh output buffers), but `recursive_optimize_export`
mutates the caller's source: every normal over-budget run returns with
the caller's file overwritten by one of its saves, never holding the
original content. -/
theorem C8_source_mutation (sz : Int → Option Nat) (len0 : Nat)
    (hlen : 512000 < len0) (r : McResult)
    (h : recursive_optimize_export sz len0 = some r) :
    r.file ≠ .orig := by
  unfold recursive_optimize_export at h
  rw [if_neg (by omega)] at h
  simp only [mcLoop] at h
  rw [if_pos ⟨by omega, by norm_num⟩] at h
  cases hsz : sz (95 - 5) with
  | none => rw [hsz] at h; simp at h
  | some s1 =>
    rw [hsz] at h
    simp only at h
    exact mcLoop_file_encoded sz 19 s1 (.encoded (95 - 5)) (95 - 5) 1 r
      (by simp) h

/-- Witness for C8 (amended): the concrete over-budget run of the C4
setting indeed leaves the file holding an encode. -/
theorem C8_witness :
    McResult.file ⟨.encoded 60, 600000, 7⟩ ≠ McData.orig :=
  C8_source_mutation (fun _ => some 600000) 600000 (by omega)
    ⟨.encoded 60, 600000, 7⟩ (by decide)

/-- C9 counterexample: a codec failure in `recursive_optimize_export` is
*not* surfaced as an error: the blanket `except Exception` swallows it
and the function returns `None` — exactly the "swallowing the exception
and returning a null result" the claim rules out. -/
theorem C9_counterexample :
    recursive_optimize_export (fun _ => none) 600000 = none := by
  decide

/-- C9 (amended): `optimize_for_retail` propagates a codec failure
immediately as a raised error, with no retry at different parameters (the
outcome is the same whatever the codec would do at any other quality);
`recursive_optimize_export` instead catches the failure and returns
`None` (a null result), not an error. -/
theorem C9_error_propagation (enc enc' : Int → Option Nat)
    (h95 : enc 95 = none) (h95' : enc' 95 = none)
    (sz : Int → Option Nat) (len0 : Nat) (hlen : 512000 < len0)
    (h90 : sz 90 = none) :
    optimize_for_retail enc =
      .err "Error in optimize_for_retail: codec failure" ∧
    optimize_for_retail enc = optimize_for_retail enc' ∧
    recursive_optimize_export sz len0 = none := by
  refine ⟨?_, ?_, ?_⟩
  · simp [optimize_for_retail, retailLoop, h95]
  · simp [optimize_for_retail, retailLoop, h95, h95']
  · unfold recursive_optimize_export
    rw [if_neg (by omega)]
    simp [mcLoop, h90, show (512000 : Nat) < len0 ∧ (65 : Int) ≤ 95 from
      ⟨hlen, by norm_num⟩]

/-- Witness for C9 (amended) with everywhere-failing codecs. -/
theorem C9_witness :
    optimize_for_retail (fun _ => none) =
      .err "Error in optimize_for_retail: codec failure" ∧
    optimize_for_retail (fun _ => none) =
      optimize_for_retail (fun x => if x = 0 then some 1 else none) ∧
    recursive_optimize_export (fun _ => none) 700000 = none :=
  C9_error_propagation (fun _ => none)
    (fun x => if x = 0 then some 1 else none) rfl (by decide)
    (fun _ => none) 700000 (by omega) rfl

/-- C10: the terminal raise of `optimize_for_retail` is unreachable when
the encoder itself does not fail: for every (total) codec the function
returns a buffer within 18 encode attempts, and when no attempt meets the
budget it returns the attempt at quality exactly 10 at iteration 18 —
strictly before the `max_iterations = 20` cap. -/
theorem C10_raise_unreachable :
    (∀ f : Int → Nat, ∃ (s : Nat) (q : Int) (i : Nat),
      optimize_for_retail (fun x => some (f x)) = .ok s q i ∧ i ≤ 18) ∧
    (∀ f : Int → Nat, (∀ q : Int, 10 ≤ q → q ≤ 95 → 512000 ≤ f q) →
      optimize_for_retail (fun x => some (f x)) = .ok (f 10) 10 18) := by
  constructor
  · intro f
    obtain ⟨s, q, i, heq, hle⟩ := retailLoop_total f 20 95 0
      (by norm_num) (by decide)
    refine ⟨s, q, i, heq, ?_⟩
    have e : ((95 : Int).toNat - 10) / 5 = 17 := by decide
    omega
  · intro f H
    simpa [optimize_for_retail] using
      retailLoop_miss f H 20 95 0 (by norm_num) (by norm_num)
        ⟨19, by norm_num⟩ (by decide)

/-- Witness for C10: a constant over-budget codec walks down to quality
10 and returns at iteration 18; a constant tiny codec returns at once. -/
theorem C10_witness :
    optimize_for_retail (fun _ => some 800000) = .ok 800000 10 18 :=
  C10_raise_unreachable.2 (fun _ => 800000) (by intro q h1 h2; norm_num)

end InstaGen
